import Mathlib

/-!
Verification development for the parcels particle-advection core:
the per-particle execution state machine, the field interpolation engine,
the restricted kernel language and its translator, and the compiled-kernel
cache. The repository ships only its packaging metadata and tutorial
notebooks; the executable core is therefore modelled from the written
specification, with each definition's doc comment naming the spec clause
it embeds.
-/

namespace Parcels

/-- Modelled from the spec: the particle state machine's states (§4.4):
`Evaluate` (initial, re-entered each step on success), `Success`, the four
runtime error states, `Delete`, and `StopExecution` (terminal for the run). -/
inductive StateCode where
  | Evaluate
  | Success
  | ErrorOutOfBounds
  | ErrorTimeExtrapolation
  | ErrorInterpolation
  | ErrorCustom
  | Delete
  | StopExecution
deriving DecidableEq, Repr

/-- Modelled from the spec: the error taxonomy (§7): `UnsupportedConstruct`
and `CompilationFailure` are setup-time; `OutOfBounds`, `TimeExtrapolation`,
`Interpolation`, `Custom` are runtime and per-particle. -/
inductive ErrorKind where
  | OutOfBounds
  | TimeExtrapolation
  | Interpolation
  | Custom
  | UnsupportedConstruct
  | CompilationFailure
deriving DecidableEq, Repr

/-- Modelled from the spec: a particle record (§3): id, position
(lon, lat, depth), time, signed dt, state, a fixed-layout record of user
variables, and a private cached grid-cell index used for interpolation
locality. Numeric quantities are exact rationals. -/
structure Particle where
  id : Nat
  lon : ℚ
  lat : ℚ
  depth : ℚ
  time : ℚ
  dt : ℚ
  state : StateCode
  uvars : List ℚ
  cellIndex : Nat × Nat
deriving DecidableEq, Repr

/-- Modelled from the spec: the record a single kernel invocation proposes
for a particle — updated position, user variables and locality cache —
together with the state code the invocation completed in (§4.4). -/
structure KernelResult where
  lon : ℚ
  lat : ℚ
  depth : ℚ
  uvars : List ℚ
  cellIndex : Nat × Nat
  code : StateCode
deriving DecidableEq, Repr

/-- Modelled from the spec: the outcome a recovery kernel decides (§4.4):
resume `Evaluate` (optionally with a reduced dt), transition to `Delete`,
or escalate to `StopExecution`. -/
inductive RecoveryOutcome where
  | resume (newDt : ℚ)
  | remove
  | halt
deriving DecidableEq, Repr

/-- The runtime `ErrorKind` carried by an `Error*` state code, `none` for
non-error codes. -/
def errorKindOf : StateCode → Option ErrorKind
  | StateCode.ErrorOutOfBounds => some ErrorKind.OutOfBounds
  | StateCode.ErrorTimeExtrapolation => some ErrorKind.TimeExtrapolation
  | StateCode.ErrorInterpolation => some ErrorKind.Interpolation
  | StateCode.ErrorCustom => some ErrorKind.Custom
  | _ => none

/-- Modelled from the spec: one timestep of the Particle Stepper for one
particle (§4.4). A particle only receives a kernel invocation while in
state `Evaluate`. On `Success` the proposed record is committed,
`time += dt`, and the state returns to `Evaluate`. On any `Error*` the
proposal is discarded — position, time and user variables are not advanced
for this step — and the registered recovery kernel for that error kind
decides the next state (resume with a dt bounded below by `minDt`, delete,
or halt); an unregistered kind escalates to `StopExecution`. -/
def stepParticle (kernel : Particle → KernelResult)
    (recovery : ErrorKind → Option (Particle → RecoveryOutcome))
    (minDt : ℚ) (p : Particle) : Particle :=
  if p.state = StateCode.Evaluate then
    let r := kernel p
    match errorKindOf r.code with
    | some ek =>
        match recovery ek with
        | none => { p with state := StateCode.StopExecution }
        | some handler =>
            match handler p with
            | RecoveryOutcome.resume newDt =>
                { p with state := StateCode.Evaluate, dt := max newDt minDt }
            | RecoveryOutcome.remove => { p with state := StateCode.Delete }
            | RecoveryOutcome.halt => { p with state := StateCode.StopExecution }
    | none =>
        match r.code with
        | StateCode.Success =>
            { p with lon := r.lon, lat := r.lat, depth := r.depth,
                     uvars := r.uvars, cellIndex := r.cellIndex,
                     time := p.time + p.dt, state := StateCode.Evaluate }
        | StateCode.Delete => { p with state := StateCode.Delete }
        | c => { p with state := c }
  else p

/-- Modelled from the spec: one timestep across the whole population
(§4.4): every alive particle in `Evaluate` is invoked once; any particle
reaching `StopExecution` is fatal to the whole run (`none`); otherwise
particles in `Delete` are removed strictly between timesteps. -/
def stepPopulation (kernel : Particle → KernelResult)
    (recovery : ErrorKind → Option (Particle → RecoveryOutcome))
    (minDt : ℚ) (ps : List Particle) : Option (List Particle) :=
  let stepped := ps.map (stepParticle kernel recovery minDt)
  if stepped.any (fun q => q.state = StateCode.StopExecution) then none
  else some (stepped.filter (fun q => q.state ≠ StateCode.Delete))

/-- Modelled from the spec: one output record `{id, time, position, user
variables}` per alive particle (§6, output boundary). -/
structure OutputRecord where
  id : Nat
  time : ℚ
  lon : ℚ
  lat : ℚ
  depth : ℚ
  uvars : List ℚ
deriving DecidableEq, Repr

/-- The output record of one particle. -/
def recordOf (p : Particle) : OutputRecord :=
  ⟨p.id, p.time, p.lon, p.lat, p.depth, p.uvars⟩

/-- Modelled from the spec: the records emitted for one recorded interval
when the per-particle kernel invocations of one timestep are evaluated in
the given order (§4.4, §6): one record per particle still alive after the
step, collected as a multiset since the emission order is unspecified. -/
def emitRecords (kernel : Particle → KernelResult)
    (recovery : ErrorKind → Option (Particle → RecoveryOutcome))
    (minDt : ℚ) (order : List Particle) : Multiset OutputRecord :=
  ↑((((order.map (stepParticle kernel recovery minDt)).filter
      (fun q => q.state ≠ StateCode.Delete ∧
                q.state ≠ StateCode.StopExecution)).map recordOf))

/-- Modelled from the spec: one coordinate axis of a rectilinear grid
(§3): sorted 1-D coordinates plus a periodic-boundary flag. -/
structure Axis where
  coords : List ℚ
  periodic : Bool

/-- Lower bound of the axis domain (first sorted coordinate). -/
def Axis.lo (a : Axis) : ℚ := a.coords.headD 0

/-- Upper bound of the axis domain (last sorted coordinate). -/
def Axis.hi (a : Axis) : ℚ := a.coords.getLastD 0

/-- Width of the axis domain. -/
def Axis.span (a : Axis) : ℚ := a.hi - a.lo

/-- Whether a coordinate lies inside the axis domain. -/
def Axis.inDomain (a : Axis) (x : ℚ) : Bool := a.lo ≤ x ∧ x ≤ a.hi

/-- Modelled from the spec: periodic wrap of a coordinate into the axis
domain (§4.1): the query is shifted by a whole number of domain widths. -/
def Axis.wrap (a : Axis) (x : ℚ) : ℚ :=
  a.lo + a.span * Int.fract ((x - a.lo) / a.span)

/-- Modelled from the spec (§4.1): an in-domain coordinate is used as is;
an out-of-domain coordinate wraps when the axis is periodic and otherwise
yields `OutOfBounds` — never silent extrapolation. -/
def Axis.resolve (a : Axis) (x : ℚ) : Except ErrorKind ℚ :=
  if a.inDomain x then Except.ok x
  else if a.periodic then Except.ok (a.wrap x)
  else Except.error ErrorKind.OutOfBounds

/-- Modelled from the spec (§4.1): locate the enclosing cell along sorted
axis coordinates — the index `i` of the first interval with
`coords[i] ≤ x ≤ coords[i+1]`, `none` when no interval encloses `x`. -/
def locate : List ℚ → ℚ → Option Nat
  | c0 :: c1 :: rest, x =>
      if c0 ≤ x ∧ x ≤ c1 then some 0
      else (locate (c1 :: rest) x).map (· + 1)
  | _, _ => none

/-- The enclosing cell index together with the fractional position of `x`
inside that cell. -/
def cellFrac (cs : List ℚ) (x : ℚ) : Option (Nat × ℚ) :=
  (locate cs x).map (fun i =>
    let c0 := cs.getD i 0
    let c1 := cs.getD (i + 1) 0
    (i, if c1 = c0 then 0 else (x - c0) / (c1 - c0)))

/-- Bilinear spatial interpolation of one 2-D snapshot at cell `(i, j)`
with fractional offsets `(fx, fy)` (§4.1, node-centered fields). -/
def bilinear (snapshot : Nat → Nat → ℚ) (i j : Nat) (fx fy : ℚ) : ℚ :=
  (1 - fy) * ((1 - fx) * snapshot j i + fx * snapshot j (i + 1))
    + fy * ((1 - fx) * snapshot (j + 1) i + fx * snapshot (j + 1) (i + 1))

/-- Clamp `x` into the interval `[l, h]`. -/
def clampQ (l h x : ℚ) : ℚ := max l (min h x)

/-- Modelled from the spec: a named scalar field on a rectilinear
(lon, lat) grid over time (§3): coordinate axes with per-axis periodic
flags, the loaded time snapshots, the time-extrapolation flag, and the
externally owned data buffer indexed as `data timeIdx latIdx lonIdx`. -/
structure Field where
  lonAxis : Axis
  latAxis : Axis
  times : List ℚ
  allowTimeExtrapolation : Bool
  data : Nat → Nat → Nat → ℚ

/-- First loaded time snapshot. -/
def Field.timeLo (f : Field) : ℚ := f.times.headD 0

/-- Last loaded time snapshot. -/
def Field.timeHi (f : Field) : ℚ := f.times.getLastD 0

/-- Whether a query time lies inside the loaded/allowed time window. -/
def Field.timeInWindow (f : Field) (t : ℚ) : Bool :=
  f.timeLo ≤ t ∧ t ≤ f.timeHi

/-- Modelled from the spec: `sample(field, t, depth, lat, lon)` (§4.1).
A query time outside the loaded window with extrapolation disabled yields
`TimeExtrapolation` (with extrapolation enabled the time is clamped to the
window). Each spatial coordinate is resolved per axis — wrap when
periodic, else `OutOfBounds`. The value is bilinear in space and linear in
time between the two bracketing snapshots. The modelled field is 2-D, so
the depth argument is carried but does not select a cell. -/
def Field.sample (f : Field) (t _depth la lo : ℚ) : Except ErrorKind ℚ :=
  if f.timeInWindow t || f.allowTimeExtrapolation then
    let tq := clampQ f.timeLo f.timeHi t
    match f.lonAxis.resolve lo with
    | Except.error e => Except.error e
    | Except.ok loq =>
        match f.latAxis.resolve la with
        | Except.error e => Except.error e
        | Except.ok laq =>
            match cellFrac f.lonAxis.coords loq, cellFrac f.latAxis.coords laq,
                  cellFrac f.times tq with
            | some (i, fx), some (j, fy), some (k, ft) =>
                Except.ok ((1 - ft) * bilinear (f.data k) i j fx fy
                           + ft * bilinear (f.data (k + 1)) i j fx fy)
            | _, _, _ => Except.error ErrorKind.Interpolation
  else Except.error ErrorKind.TimeExtrapolation

/-- Modelled from the spec: expressions of the restricted kernel language
(§4.2): arithmetic/comparison/logical expressions over literals, local
variables, particle fields, the time parameter, approved math-function
calls, seeded pseudo-random calls, and field-subscript expressions of the
form `field[time, depth, lat, lon]`. -/
inductive KExpr where
  | lit (q : ℚ)
  | localVar (x : String)
  | uvar (i : Nat)
  | plon
  | plat
  | pdepth
  | ptime
  | pdt
  | timeArg
  | add (a b : KExpr)
  | sub (a b : KExpr)
  | mul (a b : KExpr)
  | div (a b : KExpr)
  | ltE (a b : KExpr)
  | eqE (a b : KExpr)
  | andE (a b : KExpr)
  | orE (a b : KExpr)
  | notE (a : KExpr)
  | mathCall (name : String) (a : KExpr)
  | randomCall (seed : KExpr)
  | fieldGet (fieldName : String) (t d la lo : KExpr)
deriving DecidableEq, Repr

/-- Modelled from the spec: statements of the restricted kernel language
(§4.2): assignment to locals, user variables and position, `if`/`while`
with `break`, formatted print — plus the unbounded `for` iteration over an
arbitrary collection, which the translator must reject. -/
inductive KStmt where
  | skip
  | seq (a b : KStmt)
  | assignLocal (x : String) (e : KExpr)
  | assignUvar (i : Nat) (e : KExpr)
  | assignLon (e : KExpr)
  | assignLat (e : KExpr)
  | assignDepth (e : KExpr)
  | ifThen (c : KExpr) (thn els : KStmt)
  | whileLoop (c : KExpr) (body : KStmt)
  | breakLoop
  | printOut (e : KExpr)
  | forLoop (x : String) (collection : String) (body : KStmt)
deriving DecidableEq, Repr

/-- Modelled from the spec: the approved math-function vocabulary (§4.2,
functions from the math standard library). -/
def approvedMathFns : List String :=
  ["sin", "cos", "tan", "exp", "log", "sqrt", "fabs", "pow", "fmod",
   "floor"]

/-- Whether an expression uses only supported constructs (§4.2): math
calls must name an approved function. -/
def exprSupported : KExpr → Bool
  | KExpr.lit _ => true
  | KExpr.localVar _ => true
  | KExpr.uvar _ => true
  | KExpr.plon => true
  | KExpr.plat => true
  | KExpr.pdepth => true
  | KExpr.ptime => true
  | KExpr.pdt => true
  | KExpr.timeArg => true
  | KExpr.add a b => exprSupported a && exprSupported b
  | KExpr.sub a b => exprSupported a && exprSupported b
  | KExpr.mul a b => exprSupported a && exprSupported b
  | KExpr.div a b => exprSupported a && exprSupported b
  | KExpr.ltE a b => exprSupported a && exprSupported b
  | KExpr.eqE a b => exprSupported a && exprSupported b
  | KExpr.andE a b => exprSupported a && exprSupported b
  | KExpr.orE a b => exprSupported a && exprSupported b
  | KExpr.notE a => exprSupported a
  | KExpr.mathCall name a => approvedMathFns.contains name && exprSupported a
  | KExpr.randomCall a => exprSupported a
  | KExpr.fieldGet _ t d la lo =>
      exprSupported t && exprSupported d && exprSupported la
        && exprSupported lo

/-- Whether a statement uses only supported constructs (§4.2): `for`
loops — unbounded iteration over arbitrary collections — are rejected. -/
def stmtSupported : KStmt → Bool
  | KStmt.skip => true
  | KStmt.seq a b => stmtSupported a && stmtSupported b
  | KStmt.assignLocal _ e => exprSupported e
  | KStmt.assignUvar _ e => exprSupported e
  | KStmt.assignLon e => exprSupported e
  | KStmt.assignLat e => exprSupported e
  | KStmt.assignDepth e => exprSupported e
  | KStmt.ifThen c a b =>
      exprSupported c && stmtSupported a && stmtSupported b
  | KStmt.whileLoop c b => exprSupported c && stmtSupported b
  | KStmt.breakLoop => true
  | KStmt.printOut e => exprSupported e
  | KStmt.forLoop _ _ _ => false

/-- Whether a statement contains a `for` loop anywhere. -/
def mentionsFor : KStmt → Bool
  | KStmt.seq a b => mentionsFor a || mentionsFor b
  | KStmt.ifThen _ a b => mentionsFor a || mentionsFor b
  | KStmt.whileLoop _ b => mentionsFor b
  | KStmt.forLoop _ _ _ => true
  | _ => false

/-- The deterministic low-level text of an expression; user-variable
references are lowered through the resolved schema names. -/
def exprText (schema : List String) : KExpr → String
  | KExpr.lit q => toString q
  | KExpr.localVar x => x
  | KExpr.uvar i => "particle." ++ schema.getD i ("v" ++ toString i)
  | KExpr.plon => "particle.lon"
  | KExpr.plat => "particle.lat"
  | KExpr.pdepth => "particle.depth"
  | KExpr.ptime => "particle.time"
  | KExpr.pdt => "particle.dt"
  | KExpr.timeArg => "time"
  | KExpr.add a b =>
      "(" ++ exprText schema a ++ " + " ++ exprText schema b ++ ")"
  | KExpr.sub a b =>
      "(" ++ exprText schema a ++ " - " ++ exprText schema b ++ ")"
  | KExpr.mul a b =>
      "(" ++ exprText schema a ++ " * " ++ exprText schema b ++ ")"
  | KExpr.div a b =>
      "(" ++ exprText schema a ++ " / " ++ exprText schema b ++ ")"
  | KExpr.ltE a b =>
      "(" ++ exprText schema a ++ " < " ++ exprText schema b ++ ")"
  | KExpr.eqE a b =>
      "(" ++ exprText schema a ++ " == " ++ exprText schema b ++ ")"
  | KExpr.andE a b =>
      "(" ++ exprText schema a ++ " && " ++ exprText schema b ++ ")"
  | KExpr.orE a b =>
      "(" ++ exprText schema a ++ " || " ++ exprText schema b ++ ")"
  | KExpr.notE a => "(!" ++ exprText schema a ++ ")"
  | KExpr.mathCall name a => name ++ "(" ++ exprText schema a ++ ")"
  | KExpr.randomCall a => "parcels_random(" ++ exprText schema a ++ ")"
  | KExpr.fieldGet n t d la lo =>
      "sample(" ++ n ++ ", " ++ exprText schema t ++ ", "
        ++ exprText schema d ++ ", " ++ exprText schema la ++ ", "
        ++ exprText schema lo ++ ")"

/-- The deterministic low-level text of a statement. -/
def stmtText (schema : List String) : KStmt → String
  | KStmt.skip => ""
  | KStmt.seq a b => stmtText schema a ++ stmtText schema b
  | KStmt.assignLocal x e => x ++ " = " ++ exprText schema e ++ ";\n"
  | KStmt.assignUvar i e =>
      "particle." ++ schema.getD i ("v" ++ toString i) ++ " = "
        ++ exprText schema e ++ ";\n"
  | KStmt.assignLon e => "particle.lon = " ++ exprText schema e ++ ";\n"
  | KStmt.assignLat e => "particle.lat = " ++ exprText schema e ++ ";\n"
  | KStmt.assignDepth e =>
      "particle.depth = " ++ exprText schema e ++ ";\n"
  | KStmt.ifThen c a b =>
      "if (" ++ exprText schema c ++ ")\n" ++ stmtText schema a
        ++ "else\n" ++ stmtText schema b ++ "end\n"
  | KStmt.whileLoop c b =>
      "while (" ++ exprText schema c ++ ")\n" ++ stmtText schema b
        ++ "end\n"
  | KStmt.breakLoop => "break;\n"
  | KStmt.printOut e => "print(" ++ exprText schema e ++ ");\n"
  | KStmt.forLoop x coll b =>
      "for " ++ x ++ " in " ++ coll ++ "\n" ++ stmtText schema b ++ "end\n"

/-- Modelled from the spec: one authored kernel-function source (§4.2):
its parameter list — which must be exactly the three parameters particle
state, field-access context and time — and its body. -/
structure KernelSource where
  params : List String
  body : KStmt
deriving DecidableEq, Repr

/-- Modelled from the spec:
`translate(kernel_source, variable_schema)` (§4.2): accepts exactly a
three-parameter function whose body uses only supported constructs and
lowers it to deterministic textual low-level source; anything else yields
`UnsupportedConstruct`. -/
def translate (src : KernelSource) (schema : List String) :
    Except ErrorKind String :=
  if src.params.length = 3 && stmtSupported src.body then
    Except.ok (stmtText schema src.body)
  else Except.error ErrorKind.UnsupportedConstruct

/-- Modelled from the spec: a list of kernel sources is translated
independently, source by source, and the results are joined into one
function body in list order (§4.2). -/
def translateList (srcs : List KernelSource) (schema : List String) :
    Except ErrorKind String :=
  match srcs with
  | [] => Except.ok ""
  | s :: rest =>
      match translate s schema, translateList rest schema with
      | Except.ok a, Except.ok b => Except.ok (a ++ b)
      | Except.error e, _ => Except.error e
      | _, Except.error e => Except.error e

/-- Modelled from the spec: the translate-then-compile pipeline (§4.2,
§4.3): a translation failure is reported before any compilation is
attempted. The second component counts backend compiler invocations. -/
def buildPipeline (compile : String → Except ErrorKind String)
    (srcs : List KernelSource) (schema : List String) :
    Except ErrorKind String × Nat :=
  match translateList srcs schema with
  | Except.error e => (Except.error e, 0)
  | Except.ok txt => (compile txt, 1)

/-- A local-variable environment: a per-invocation association list. -/
abbrev Env := List (String × ℚ)

/-- Look up a local variable; an unassigned local reads as 0. -/
def lookupEnv (env : Env) (x : String) : ℚ := (env.lookup x).getD 0

/-- The ambient context of one kernel invocation: the field-access
context, the approved math semantics, the seeded pseudo-random stream,
the current time, and the loop-fuel bound (kernel steps are short and
non-interruptible, §5). -/
structure KernelCtx where
  fenv : String → ℚ → ℚ → ℚ → ℚ → Except ErrorKind ℚ
  menv : String → ℚ → ℚ
  renv : ℚ → ℚ
  tnow : ℚ
  fuel : Nat

/-- Modelled from the spec: expression evaluation for the kernel language.
Comparisons and logical operations are encoded numerically (0 is false).
Field subscripts are lowered to Field Interpolator calls with inline error
propagation (§4.2). -/
def evalE (ctx : KernelCtx) (env : Env) (p : Particle) :
    KExpr → Except ErrorKind ℚ
  | KExpr.lit q => Except.ok q
  | KExpr.localVar x => Except.ok (lookupEnv env x)
  | KExpr.uvar i => Except.ok (p.uvars.getD i 0)
  | KExpr.plon => Except.ok p.lon
  | KExpr.plat => Except.ok p.lat
  | KExpr.pdepth => Except.ok p.depth
  | KExpr.ptime => Except.ok p.time
  | KExpr.pdt => Except.ok p.dt
  | KExpr.timeArg => Except.ok ctx.tnow
  | KExpr.add a b => do
      Except.ok ((← evalE ctx env p a) + (← evalE ctx env p b))
  | KExpr.sub a b => do
      Except.ok ((← evalE ctx env p a) - (← evalE ctx env p b))
  | KExpr.mul a b => do
      Except.ok ((← evalE ctx env p a) * (← evalE ctx env p b))
  | KExpr.div a b => do
      Except.ok ((← evalE ctx env p a) / (← evalE ctx env p b))
  | KExpr.ltE a b => do
      Except.ok (if (← evalE ctx env p a) < (← evalE ctx env p b)
                 then 1 else 0)
  | KExpr.eqE a b => do
      Except.ok (if (← evalE ctx env p a) = (← evalE ctx env p b)
                 then 1 else 0)
  | KExpr.andE a b => do
      Except.ok (if (← evalE ctx env p a) ≠ 0 ∧ (← evalE ctx env p b) ≠ 0
                 then 1 else 0)
  | KExpr.orE a b => do
      Except.ok (if (← evalE ctx env p a) ≠ 0 ∨ (← evalE ctx env p b) ≠ 0
                 then 1 else 0)
  | KExpr.notE a => do
      Except.ok (if (← evalE ctx env p a) = 0 then 1 else 0)
  | KExpr.mathCall name a => do
      Except.ok (ctx.menv name (← evalE ctx env p a))
  | KExpr.randomCall a => do
      Except.ok (ctx.renv (← evalE ctx env p a))
  | KExpr.fieldGet n t d la lo => do
      ctx.fenv n (← evalE ctx env p t) (← evalE ctx env p d)
        (← evalE ctx env p la) (← evalE ctx env p lo)

/-- A break signal propagating out of the innermost loop. -/
inductive Signal where
  | norm
  | brk
deriving DecidableEq, Repr

/-- Modelled from the spec: statement execution for the kernel language
(§4.2): local variables thread through the statement sequence, `while`
runs under explicit fuel, `break` exits the innermost loop, print has no
state effect, and the rejected `for` construct has no semantics. -/
def execS (ctx : KernelCtx) :
    Nat → KStmt → Env → Particle → Except ErrorKind (Env × Particle × Signal)
  | _, KStmt.skip, env, p => Except.ok (env, p, Signal.norm)
  | fuel, KStmt.seq a b, env, p => do
      match ← execS ctx fuel a env p with
      | (env1, p1, Signal.brk) => Except.ok (env1, p1, Signal.brk)
      | (env1, p1, Signal.norm) => execS ctx fuel b env1 p1
  | _, KStmt.assignLocal x e, env, p => do
      Except.ok ((x, ← evalE ctx env p e) :: env, p, Signal.norm)
  | _, KStmt.assignUvar i e, env, p => do
      Except.ok (env, { p with uvars := p.uvars.set i (← evalE ctx env p e) },
                 Signal.norm)
  | _, KStmt.assignLon e, env, p => do
      Except.ok (env, { p with lon := ← evalE ctx env p e }, Signal.norm)
  | _, KStmt.assignLat e, env, p => do
      Except.ok (env, { p with lat := ← evalE ctx env p e }, Signal.norm)
  | _, KStmt.assignDepth e, env, p => do
      Except.ok (env, { p with depth := ← evalE ctx env p e }, Signal.norm)
  | fuel, KStmt.ifThen c a b, env, p => do
      if (← evalE ctx env p c) ≠ 0 then execS ctx fuel a env p
      else execS ctx fuel b env p
  | fuel, KStmt.whileLoop c b, env, p =>
      match fuel with
      | 0 => Except.error ErrorKind.Custom
      | fuel1 + 1 => do
          if (← evalE ctx env p c) ≠ 0 then
            match ← execS ctx fuel1 b env p with
            | (env1, p1, Signal.brk) => Except.ok (env1, p1, Signal.norm)
            | (env1, p1, Signal.norm) =>
                execS ctx fuel1 (KStmt.whileLoop c b) env1 p1
          else Except.ok (env, p, Signal.norm)
  | _, KStmt.breakLoop, env, p => Except.ok (env, p, Signal.brk)
  | _, KStmt.printOut e, env, p => do
      let _ ← evalE ctx env p e
      Except.ok (env, p, Signal.norm)
  | _, KStmt.forLoop _ _ _, _, _ => Except.error ErrorKind.Custom
termination_by fuel s _ _ => (fuel, sizeOf s)

/-- Modelled from the spec: the joined body of a kernel list — the
segments' bodies in list order (§4.2). -/
def concatBodies (srcs : List KernelSource) : KStmt :=
  srcs.foldr (fun s acc => KStmt.seq s.body acc) KStmt.skip

/-- Modelled from the spec: one kernel invocation of one particle for one
timestep (§4.2): the local environment starts empty and is discarded when
the invocation returns — only the particle record survives. An execution
error leaves the particle record unchanged (the stepper handles the error
state separately). -/
def kernelInvoke (ctx : KernelCtx) (body : KStmt) (p : Particle) :
    Particle :=
  match execS ctx ctx.fuel body [] p with
  | Except.ok (_, p1, _) => p1
  | Except.error _ => p

/-- Modelled from the spec: repeated timesteps of one particle under one
kernel body; each step begins from a fresh empty local environment. -/
def runTimesteps (ctx : KernelCtx) (body : KStmt) :
    Nat → Particle → Particle
  | 0, p => p
  | n + 1, p => kernelInvoke ctx body (runTimesteps ctx body n p)

/-- Modelled from the spec: one timestep across a population (§4.2, §5):
particles are stepped independently and no particle sees another's local
variables. -/
def stepAll (ctx : KernelCtx) (body : KStmt) (ps : List Particle) :
    List Particle :=
  ps.map (kernelInvoke ctx body)

/-- A kernel segment assigning the local variable x the value 1. -/
def segA : KernelSource :=
  ⟨["particle", "fieldset", "time"], KStmt.assignLocal "x" (KExpr.lit 1)⟩

/-- A kernel segment copying the local variable x into user variable 0. -/
def segB : KernelSource :=
  ⟨["particle", "fieldset", "time"],
   KStmt.assignUvar 0 (KExpr.localVar "x")⟩

/-- A trivial kernel context: every field lookup fails, math calls are
the identity in their argument, the random stream returns its seed,
current time 0, fuel 9. -/
def ctx0 : KernelCtx :=
  ⟨fun _ _ _ _ _ => Except.error ErrorKind.Interpolation,
   fun _ q => q, fun q => q, 0, 9⟩

/-- A concrete particle with one user variable. -/
def particle0 : Particle :=
  ⟨0, 0, 0, 0, 0, 1, StateCode.Evaluate, [5], (0, 0)⟩

/-- Modelled from the spec: a kernel's resolved signature (§3): the
concatenated translated source and the resolved variable schema. -/
structure Signature where
  src : String
  schema : List String
deriving DecidableEq, Repr

/-- A deterministic polynomial rolling hash of a string. -/
def hashString (s : String) : Nat :=
  s.foldl (fun h c => (h * 31 + c.toNat) % 1000000007) 7

/-- Modelled from the spec: the cache key — the hash of the concatenated
translated source plus the resolved variable schema (§4.3). -/
def hashSig (sig : Signature) : Nat :=
  (hashString sig.src * 131
    + hashString (String.intercalate "," sig.schema)) % 1000000007

/-- Modelled from the spec: a compiled kernel artifact (§3, §4.3): an
executable handle keyed by signature, never mutated in place. -/
structure Artifact where
  key : Nat
  loweredSrc : String
deriving DecidableEq, Repr

/-- Backend compilation of a signature into an artifact — a deterministic
function of the signature, so the artifact's behavior is fully determined
by its signature. -/
def buildArtifact (sig : Signature) : Artifact := ⟨hashSig sig, sig.src⟩

/-- Modelled from the spec: the process-wide compiled-kernel cache (§4.3):
entries keyed by signature hash, plus the count of backend compilations
performed so far. -/
structure KernelCache where
  entries : List (Nat × Artifact)
  builds : Nat
deriving DecidableEq, Repr

/-- The empty cache. -/
def KernelCache.empty : KernelCache := ⟨[], 0⟩

/-- Modelled from the spec: `get_or_build(signature)` (§4.3): a present
key is a cache hit returned without compilation; an absent key triggers
exactly one backend build whose artifact is inserted, populating the
cache lazily. -/
def getOrBuild (c : KernelCache) (sig : Signature) :
    Artifact × KernelCache :=
  match c.entries.lookup (hashSig sig) with
  | some a => (a, c)
  | none =>
      (buildArtifact sig,
       ⟨(hashSig sig, buildArtifact sig) :: c.entries, c.builds + 1⟩)

/-- Sequential service of a list of cache requests. -/
def serveAll (c : KernelCache) (reqs : List Signature) : KernelCache :=
  reqs.foldl (fun c2 s => (getOrBuild c2 s).2) c

/-- A concrete signature for cache tests. -/
def sigX : Signature := ⟨"particle.lon = 1;", ["lon", "lat"]⟩

/-- A kernel source with only two parameters. -/
def badArity : KernelSource := ⟨["particle", "fieldset"], KStmt.skip⟩

/-- A kernel source whose body iterates over an arbitrary collection. -/
def badFor : KernelSource :=
  ⟨["particle", "fieldset", "time"],
   KStmt.forLoop "i" "items" (KStmt.assignLocal "x" (KExpr.lit 0))⟩

/-- Modelled from the spec and the tutorial (FieldSet section): a FieldSet
is an immutable-after-construction mapping from name to Field. -/
structure FieldSet where
  fields : List (String × Field)

/-- Whether the FieldSet contains a field of the given name. -/
def FieldSet.hasField (fs : FieldSet) (name : String) : Bool :=
  fs.fields.any (fun kv => kv.1 == name)

/-- Modelled from the spec: a setup-time error for a run whose FieldSet
lacks a required horizontal velocity component. -/
inductive SetupError where
  | missingU
  | missingV
deriving DecidableEq, Repr

/-- Modelled from the spec and the tutorial (FieldSet section: the minimal
requirement is that the FieldSet contains the U and V fields):
ParticleSet construction is rejected when either is absent. -/
def mkParticleSet (fs : FieldSet) (init : List Particle) :
    Except SetupError (FieldSet × List Particle) :=
  if fs.hasField "U" then
    if fs.hasField "V" then Except.ok (fs, init)
    else Except.error SetupError.missingV
  else Except.error SetupError.missingU

/-- Modelled from the spec: the outer per-timestep loop (§4.4): `none`
when the run was halted by `StopExecution`. -/
def runSteps (kernel : Particle → KernelResult)
    (recovery : ErrorKind → Option (Particle → RecoveryOutcome))
    (minDt : ℚ) : Nat → List Particle → Option (List Particle)
  | 0, ps => some ps
  | n + 1, ps =>
      match stepPopulation kernel recovery minDt ps with
      | none => none
      | some ps1 => runSteps kernel recovery minDt n ps1

/-- Modelled from the spec: setting up and executing a run: the
ParticleSet is constructed from the FieldSet before any particle is
stepped; the second component counts the timesteps actually executed. -/
def setupAndExecute (fs : FieldSet) (init : List Particle)
    (kernel : Particle → KernelResult)
    (recovery : ErrorKind → Option (Particle → RecoveryOutcome))
    (minDt : ℚ) (n : Nat) :
    Except SetupError (Option (List Particle)) × Nat :=
  match mkParticleSet fs init with
  | Except.error e => (Except.error e, 0)
  | Except.ok (_, ps) =>
      (Except.ok (runSteps kernel recovery minDt n ps), n)

/-- A concrete test field: periodic lon axis `[0, 1, 2]`, non-periodic lat
axis `[0, 1]`, loaded times `[0, 10]`, time extrapolation disabled,
constant data 5. -/
def fieldA : Field :=
  ⟨⟨[0, 1, 2], true⟩, ⟨[0, 1], false⟩, [0, 10], false, fun _ _ _ => 5⟩

/-- A concrete test field: non-periodic lon axis, periodic lat axis. -/
def fieldB : Field :=
  ⟨⟨[0, 1, 2], false⟩, ⟨[0, 1], true⟩, [0, 10], false, fun _ _ _ => 7⟩

/-- A concrete test field whose sample at the origin succeeds with 3. -/
def fieldC : Field :=
  ⟨⟨[0, 1], false⟩, ⟨[0, 1], false⟩, [0, 1], false, fun _ _ _ => 3⟩

/-- A concrete test field whose sample at the origin is `OutOfBounds`
(its lon axis starts at 2 and is not periodic). -/
def fieldE : Field :=
  ⟨⟨[2, 3], false⟩, ⟨[0, 1], false⟩, [0, 1], false, fun _ _ _ => 1⟩

/-- A concrete test field whose sample at time 0 is `TimeExtrapolation`
(its loaded window is `[5, 6]` and extrapolation is disabled). -/
def fieldF : Field :=
  ⟨⟨[0, 1], false⟩, ⟨[0, 1], false⟩, [5, 6], false, fun _ _ _ => 0⟩

/-- A FieldSet holding only a U field. -/
def fsU : FieldSet := ⟨[("U", fieldC)]⟩

/-- A FieldSet holding only a V field. -/
def fsV : FieldSet := ⟨[("V", fieldC)]⟩

/-- A FieldSet holding both horizontal velocity components. -/
def fsUV : FieldSet := ⟨[("U", fieldC), ("V", fieldC)]⟩

/-- Modelled from the spec: a summed composite field (§4.1): the
elementwise sum of its constituents' samples, failing as soon as any
constituent fails. -/
def sampleSummed (t d la lo : ℚ) : List Field → Except ErrorKind ℚ
  | [] => Except.ok 0
  | f :: rest =>
      match f.sample t d la lo with
      | Except.error e => Except.error e
      | Except.ok v =>
          match sampleSummed t d la lo rest with
          | Except.error e => Except.error e
          | Except.ok w => Except.ok (v + w)

/-- Modelled from the spec: a nested composite field (§4.1): constituents
are evaluated in priority order, the first success is returned, and when
every constituent fails the last error encountered is returned. -/
def sampleNested (t d la lo : ℚ) : List Field → Except ErrorKind ℚ
  | [] => Except.error ErrorKind.Interpolation
  | [f] => f.sample t d la lo
  | f :: g :: rest =>
      match f.sample t d la lo with
      | Except.ok v => Except.ok v
      | Except.error _ => sampleNested t d la lo (g :: rest)

/-- C1: for every particle whose kernel invocation in a timestep completes
in state `Success`, the particle's time after the step equals its time
before the step plus its signed dt, exactly, and its state returns to
`Evaluate` for the next timestep. -/
theorem C1_success_advances_time_exactly
    (kernel : Particle → KernelResult)
    (recovery : ErrorKind → Option (Particle → RecoveryOutcome))
    (minDt : ℚ) (p : Particle)
    (hEval : p.state = StateCode.Evaluate)
    (hSucc : (kernel p).code = StateCode.Success) :
    (stepParticle kernel recovery minDt p).time = p.time + p.dt ∧
    (stepParticle kernel recovery minDt p).state = StateCode.Evaluate := by
  simp [stepParticle, hEval, hSucc, errorKindOf]

/-- Witness for C1 at a concrete kernel and particle. -/
theorem C1_success_advances_time_exactly_witness :
    (stepParticle
      (fun _ => ⟨5, 6, 0, [], (0, 0), StateCode.Success⟩)
      (fun _ => none) 0
      ⟨0, 1, 2, 0, 100, 3, StateCode.Evaluate, [], (0, 0)⟩).time = 103 ∧
    (stepParticle
      (fun _ => ⟨5, 6, 0, [], (0, 0), StateCode.Success⟩)
      (fun _ => none) 0
      ⟨0, 1, 2, 0, 100, 3, StateCode.Evaluate, [], (0, 0)⟩).state
      = StateCode.Evaluate := by
  have h := C1_success_advances_time_exactly
    (fun _ => ⟨5, 6, 0, [], (0, 0), StateCode.Success⟩)
    (fun _ => none) 0
    ⟨0, 1, 2, 0, 100, 3, StateCode.Evaluate, [], (0, 0)⟩
    (by rfl) (by rfl)
  exact ⟨by rw [h.1]; norm_num, h.2⟩

/-- C3: for every particle and every timestep in which the kernel
invocation ends in any `Error*` state, that particle's position, time, and
user variables are unchanged from their values at the start of that step
(error atomicity). -/
theorem C3_error_atomicity
    (kernel : Particle → KernelResult)
    (recovery : ErrorKind → Option (Particle → RecoveryOutcome))
    (minDt : ℚ) (p : Particle) (ek : ErrorKind)
    (hErr : errorKindOf (kernel p).code = some ek) :
    (stepParticle kernel recovery minDt p).lon = p.lon ∧
    (stepParticle kernel recovery minDt p).lat = p.lat ∧
    (stepParticle kernel recovery minDt p).depth = p.depth ∧
    (stepParticle kernel recovery minDt p).time = p.time ∧
    (stepParticle kernel recovery minDt p).uvars = p.uvars := by
  by_cases hEval : p.state = StateCode.Evaluate
  · rcases hrec : recovery ek with _ | handler
    · simp [stepParticle, hEval, hErr, hrec]
    · rcases hh : handler p with d | _ | _ <;>
        simp [stepParticle, hEval, hErr, hrec, hh]
  · simp [stepParticle, hEval]

/-- Witness for C3 at a concrete erroring kernel and particle. -/
theorem C3_error_atomicity_witness :
    (stepParticle
      (fun _ => ⟨5, 6, 7, [8], (1, 1), StateCode.ErrorOutOfBounds⟩)
      (fun _ => none) 0
      ⟨0, 1, 2, 3, 100, 3, StateCode.Evaluate, [4], (0, 0)⟩).lon = 1 ∧
    (stepParticle
      (fun _ => ⟨5, 6, 7, [8], (1, 1), StateCode.ErrorOutOfBounds⟩)
      (fun _ => none) 0
      ⟨0, 1, 2, 3, 100, 3, StateCode.Evaluate, [4], (0, 0)⟩).time = 100 := by
  have h := C3_error_atomicity
    (fun _ => ⟨5, 6, 7, [8], (1, 1), StateCode.ErrorOutOfBounds⟩)
    (fun _ => none) 0
    ⟨0, 1, 2, 3, 100, 3, StateCode.Evaluate, [4], (0, 0)⟩
    ErrorKind.OutOfBounds (by rfl)
  exact ⟨h.1, h.2.2.2.1⟩

/-- C7: for every `Error*` transition of a particle whose `ErrorKind` has
no recovery kernel registered, the stepper escalates that particle's error
to `StopExecution`, which is fatal to the whole run (the population step
halts). -/
theorem C7_unregistered_error_is_fatal
    (kernel : Particle → KernelResult)
    (recovery : ErrorKind → Option (Particle → RecoveryOutcome))
    (minDt : ℚ) (p : Particle) (ps : List Particle) (ek : ErrorKind)
    (hMem : p ∈ ps)
    (hEval : p.state = StateCode.Evaluate)
    (hErr : errorKindOf (kernel p).code = some ek)
    (hUnreg : recovery ek = none) :
    (stepParticle kernel recovery minDt p).state = StateCode.StopExecution ∧
    stepPopulation kernel recovery minDt ps = none := by
  have hStep : (stepParticle kernel recovery minDt p).state
      = StateCode.StopExecution := by
    simp [stepParticle, hEval, hErr, hUnreg]
  refine ⟨hStep, ?_⟩
  unfold stepPopulation
  have hAny : (ps.map (stepParticle kernel recovery minDt)).any
      (fun q => q.state = StateCode.StopExecution) = true := by
    rw [List.any_eq_true]
    exact ⟨stepParticle kernel recovery minDt p,
      List.mem_map_of_mem _ hMem, by simp [hStep]⟩
  simp [hAny]

/-- Witness for C7: a single particle erroring with no handler registered
halts the run. -/
theorem C7_unregistered_error_is_fatal_witness :
    (stepParticle
      (fun _ => ⟨0, 0, 0, [], (0, 0), StateCode.ErrorCustom⟩)
      (fun _ => none) 0
      ⟨0, 0, 0, 0, 0, 1, StateCode.Evaluate, [], (0, 0)⟩).state
      = StateCode.StopExecution ∧
    stepPopulation
      (fun _ => ⟨0, 0, 0, [], (0, 0), StateCode.ErrorCustom⟩)
      (fun _ => none) 0
      [⟨0, 0, 0, 0, 0, 1, StateCode.Evaluate, [], (0, 0)⟩] = none :=
  C7_unregistered_error_is_fatal
    (fun _ => ⟨0, 0, 0, [], (0, 0), StateCode.ErrorCustom⟩)
    (fun _ => none) 0
    ⟨0, 0, 0, 0, 0, 1, StateCode.Evaluate, [], (0, 0)⟩
    [⟨0, 0, 0, 0, 0, 1, StateCode.Evaluate, [], (0, 0)⟩]
    ErrorKind.Custom (by simp) (by rfl) (by rfl) (by rfl)

/-- C9: for every particle population and every timestep, the multiset of
output records emitted for a recorded interval is identical under every
evaluation order (scheduling) of the per-particle kernel invocations
within that timestep. -/
theorem C9_records_independent_of_order
    (kernel : Particle → KernelResult)
    (recovery : ErrorKind → Option (Particle → RecoveryOutcome))
    (minDt : ℚ) (order₁ order₂ : List Particle)
    (hPerm : order₁.Perm order₂) :
    emitRecords kernel recovery minDt order₁
      = emitRecords kernel recovery minDt order₂ := by
  unfold emitRecords
  exact Multiset.coe_eq_coe.mpr
    (((hPerm.map (stepParticle kernel recovery minDt)).filter _).map recordOf)

/-- Witness for C9: two orders of a concrete two-particle population emit
the same records. -/
theorem C9_records_independent_of_order_witness :
    emitRecords
      (fun _ => ⟨0, 0, 0, [], (0, 0), StateCode.Success⟩)
      (fun _ => none) 0
      [⟨0, 0, 0, 0, 0, 1, StateCode.Evaluate, [], (0, 0)⟩,
       ⟨1, 5, 5, 5, 0, 1, StateCode.Evaluate, [], (0, 0)⟩]
      = emitRecords
      (fun _ => ⟨0, 0, 0, [], (0, 0), StateCode.Success⟩)
      (fun _ => none) 0
      [⟨1, 5, 5, 5, 0, 1, StateCode.Evaluate, [], (0, 0)⟩,
       ⟨0, 0, 0, 0, 0, 1, StateCode.Evaluate, [], (0, 0)⟩] :=
  C9_records_independent_of_order
    (fun _ => ⟨0, 0, 0, [], (0, 0), StateCode.Success⟩)
    (fun _ => none) 0 _ _
    (List.Perm.swap _ _ _)

/-- A coordinate wrapped by a periodic axis of positive width lands inside
the axis domain. -/
theorem Axis.wrap_mem (a : Axis) (x : ℚ) (h : 0 < a.span) :
    a.lo ≤ a.wrap x ∧ a.wrap x ≤ a.hi := by
  have h0 : (0 : ℚ) ≤ Int.fract ((x - a.lo) / a.span) := Int.fract_nonneg _
  have h1 : Int.fract ((x - a.lo) / a.span) < 1 := Int.fract_lt_one _
  have hprod0 : 0 ≤ a.span * Int.fract ((x - a.lo) / a.span) :=
    mul_nonneg h.le h0
  have hprod1 : a.span * Int.fract ((x - a.lo) / a.span) < a.span := by
    nlinarith
  have hhi : a.hi = a.lo + a.span := by
    unfold Axis.span
    ring
  unfold Axis.wrap
  constructor
  · linarith
  · linarith

/-- C2: a sample query whose time lies outside the loaded window with
extrapolation disabled yields `TimeExtrapolation`; a query position
outside the spatial domain on an axis yields the wrapped interior value
when that axis is periodic and `OutOfBounds` when it is not — stated for
both the lon and the lat axis. -/
theorem C2_sample_errors_and_wrap (f : Field) (t d la lo : ℚ) :
    (f.allowTimeExtrapolation = false → f.timeInWindow t = false →
      f.sample t d la lo = Except.error ErrorKind.TimeExtrapolation) ∧
    (f.lonAxis.periodic = true → f.lonAxis.inDomain lo = false →
      0 < f.lonAxis.span →
      f.sample t d la lo = f.sample t d la (f.lonAxis.wrap lo) ∧
      f.lonAxis.inDomain (f.lonAxis.wrap lo) = true) ∧
    (f.lonAxis.periodic = false → f.lonAxis.inDomain lo = false →
      f.timeInWindow t = true →
      f.sample t d la lo = Except.error ErrorKind.OutOfBounds) ∧
    (f.latAxis.periodic = true → f.latAxis.inDomain la = false →
      0 < f.latAxis.span →
      f.sample t d la lo = f.sample t d (f.latAxis.wrap la) lo ∧
      f.latAxis.inDomain (f.latAxis.wrap la) = true) ∧
    (f.latAxis.periodic = false → f.latAxis.inDomain la = false →
      f.lonAxis.inDomain lo = true → f.timeInWindow t = true →
      f.sample t d la lo = Except.error ErrorKind.OutOfBounds) := by
  refine ⟨?_, ?_, ?_, ?_, ?_⟩
  · intro hE hT
    simp [Field.sample, hT, hE]
  · intro hP hOut hSpan
    have hmem := Axis.wrap_mem f.lonAxis lo hSpan
    have hin : f.lonAxis.inDomain (f.lonAxis.wrap lo) = true := by
      simp only [Axis.inDomain, decide_eq_true_eq]
      exact hmem
    have hres : f.lonAxis.resolve lo = Except.ok (f.lonAxis.wrap lo) := by
      simp [Axis.resolve, hOut, hP]
    have hres2 : f.lonAxis.resolve (f.lonAxis.wrap lo)
        = Except.ok (f.lonAxis.wrap lo) := by
      simp [Axis.resolve, hin]
    refine ⟨?_, hin⟩
    simp only [Field.sample]
    rw [hres, hres2]
  · intro hP hOut hT
    have hres : f.lonAxis.resolve lo = Except.error ErrorKind.OutOfBounds := by
      simp [Axis.resolve, hOut, hP]
    simp [Field.sample, hT, hres]
  · intro hP hOut hSpan
    have hmem := Axis.wrap_mem f.latAxis la hSpan
    have hin : f.latAxis.inDomain (f.latAxis.wrap la) = true := by
      simp only [Axis.inDomain, decide_eq_true_eq]
      exact hmem
    have hres : f.latAxis.resolve la = Except.ok (f.latAxis.wrap la) := by
      simp [Axis.resolve, hOut, hP]
    have hres2 : f.latAxis.resolve (f.latAxis.wrap la)
        = Except.ok (f.latAxis.wrap la) := by
      simp [Axis.resolve, hin]
    refine ⟨?_, hin⟩
    simp only [Field.sample]
    rw [hres, hres2]
  · intro hP hOut hLon hT
    have hresLon : f.lonAxis.resolve lo = Except.ok lo := by
      simp [Axis.resolve, hLon]
    have hresLat : f.latAxis.resolve la
        = Except.error ErrorKind.OutOfBounds := by
      simp [Axis.resolve, hOut, hP]
    simp [Field.sample, hT, hresLon, hresLat]

/-- Witness for C2 on two concrete fields: time extrapolation error, lon
wrap, lon out-of-bounds, lat wrap, and lat out-of-bounds. -/
theorem C2_sample_errors_and_wrap_witness :
    fieldA.sample 11 0 (1/2) (1/2)
      = Except.error ErrorKind.TimeExtrapolation ∧
    (fieldA.sample 1 0 (1/2) (5/2)
        = fieldA.sample 1 0 (1/2) (fieldA.lonAxis.wrap (5/2)) ∧
      fieldA.lonAxis.inDomain (fieldA.lonAxis.wrap (5/2)) = true) ∧
    fieldB.sample 1 0 (1/2) 3 = Except.error ErrorKind.OutOfBounds ∧
    (fieldB.sample 1 0 (3/2) (1/2)
        = fieldB.sample 1 0 (fieldB.latAxis.wrap (3/2)) (1/2) ∧
      fieldB.latAxis.inDomain (fieldB.latAxis.wrap (3/2)) = true) ∧
    fieldA.sample 1 0 2 (1/2) = Except.error ErrorKind.OutOfBounds := by
  refine ⟨?_, ?_, ?_, ?_, ?_⟩
  · exact (C2_sample_errors_and_wrap fieldA 11 0 (1/2) (1/2)).1
      (by rfl)
      (by norm_num [fieldA, Field.timeInWindow, Field.timeLo, Field.timeHi])
  · exact (C2_sample_errors_and_wrap fieldA 1 0 (1/2) (5/2)).2.1
      (by rfl)
      (by norm_num [fieldA, Axis.inDomain, Axis.lo, Axis.hi])
      (by norm_num [fieldA, Axis.span, Axis.lo, Axis.hi])
  · exact (C2_sample_errors_and_wrap fieldB 1 0 (1/2) 3).2.2.1
      (by rfl)
      (by norm_num [fieldB, Axis.inDomain, Axis.lo, Axis.hi])
      (by norm_num [fieldB, Field.timeInWindow, Field.timeLo, Field.timeHi])
  · exact (C2_sample_errors_and_wrap fieldB 1 0 (3/2) (1/2)).2.2.2.1
      (by rfl)
      (by norm_num [fieldB, Axis.inDomain, Axis.lo, Axis.hi])
      (by norm_num [fieldB, Axis.span, Axis.lo, Axis.hi])
  · exact (C2_sample_errors_and_wrap fieldA 1 0 2 (1/2)).2.2.2.2
      (by rfl)
      (by norm_num [fieldA, Axis.inDomain, Axis.lo, Axis.hi])
      (by norm_num [fieldA, Axis.inDomain, Axis.lo, Axis.hi])
      (by norm_num [fieldA, Field.timeInWindow, Field.timeLo, Field.timeHi])

/-- A summed field whose constituents all succeed returns the elementwise
sum of the constituent values. -/
theorem sampleSummed_ok (t d la lo : ℚ) (v : Field → ℚ) :
    ∀ fs : List Field, (∀ g ∈ fs, g.sample t d la lo = Except.ok (v g)) →
      sampleSummed t d la lo fs = Except.ok ((fs.map v).sum)
  | [], _ => by simp [sampleSummed]
  | f :: rest, h => by
      have hf := h f (by simp)
      have hr := sampleSummed_ok t d la lo v rest
        (fun g hg => h g (by simp [hg]))
      simp [sampleSummed, hf, hr]

/-- A summed field fails with the first failing constituent's error. -/
theorem sampleSummed_err (t d la lo : ℚ) (v : Field → ℚ) (e : ErrorKind)
    (f : Field) :
    ∀ pre post : List Field,
      (∀ g ∈ pre, g.sample t d la lo = Except.ok (v g)) →
      f.sample t d la lo = Except.error e →
      sampleSummed t d la lo (pre ++ f :: post) = Except.error e
  | [], post, _, hf => by simp [sampleSummed, hf]
  | g :: pre, post, hpre, hf => by
      have hg := hpre g (by simp)
      have hr := sampleSummed_err t d la lo v e f pre post
        (fun g' hg' => hpre g' (by simp [hg'])) hf
      simp [sampleSummed, hg, hr]

/-- A nested field returns the value of the first succeeding constituent
in priority order. -/
theorem sampleNested_first_ok (t d la lo : ℚ) (v : ℚ) (f : Field) :
    ∀ pre post : List Field,
      (∀ g ∈ pre, ∃ e, g.sample t d la lo = Except.error e) →
      f.sample t d la lo = Except.ok v →
      sampleNested t d la lo (pre ++ f :: post) = Except.ok v
  | [], post, _, hf => by
      cases post with
      | nil => simp [sampleNested, hf]
      | cons p ps => simp [sampleNested, hf]
  | g :: pre, post, hpre, hf => by
      rcases hpre g (by simp) with ⟨e, he⟩
      have hr := sampleNested_first_ok t d la lo v f pre post
        (fun g' hg' => hpre g' (by simp [hg'])) hf
      cases pre with
      | nil => simpa [sampleNested, he] using hr
      | cons p pre' => simpa [sampleNested, he] using hr

/-- A nested field whose constituents all fail returns the last error
encountered. -/
theorem sampleNested_all_err (t d la lo : ℚ) (e : ErrorKind) (f : Field) :
    ∀ fs : List Field,
      (∀ g ∈ fs, ∃ e', g.sample t d la lo = Except.error e') →
      f.sample t d la lo = Except.error e →
      sampleNested t d la lo (fs ++ [f]) = Except.error e
  | [], _, hf => by simp [sampleNested, hf]
  | g :: fs, hall, hf => by
      rcases hall g (by simp) with ⟨e', he'⟩
      have hr := sampleNested_all_err t d la lo e f fs
        (fun g' hg' => hall g' (by simp [hg'])) hf
      cases fs with
      | nil => simpa [sampleNested, he'] using hr
      | cons p fs' => simpa [sampleNested, he'] using hr

/-- C8: sampling a summed field returns the elementwise sum of its
constituents and fails (with the first failing constituent's error)
whenever any constituent fails; sampling a nested field evaluates
constituents in priority order and returns the first success, or, when
every constituent fails, the last error encountered. -/
theorem C8_composite_fields (t d la lo : ℚ) :
    (∀ (v : Field → ℚ) (fs : List Field),
      (∀ g ∈ fs, g.sample t d la lo = Except.ok (v g)) →
      sampleSummed t d la lo fs = Except.ok ((fs.map v).sum)) ∧
    (∀ (v : Field → ℚ) (e : ErrorKind) (f : Field) (pre post : List Field),
      (∀ g ∈ pre, g.sample t d la lo = Except.ok (v g)) →
      f.sample t d la lo = Except.error e →
      sampleSummed t d la lo (pre ++ f :: post) = Except.error e) ∧
    (∀ (v : ℚ) (f : Field) (pre post : List Field),
      (∀ g ∈ pre, ∃ e, g.sample t d la lo = Except.error e) →
      f.sample t d la lo = Except.ok v →
      sampleNested t d la lo (pre ++ f :: post) = Except.ok v) ∧
    (∀ (e : ErrorKind) (f : Field) (fs : List Field),
      (∀ g ∈ fs, ∃ e', g.sample t d la lo = Except.error e') →
      f.sample t d la lo = Except.error e →
      sampleNested t d la lo (fs ++ [f]) = Except.error e) :=
  ⟨fun v fs => sampleSummed_ok t d la lo v fs,
   fun v e f pre post => sampleSummed_err t d la lo v e f pre post,
   fun v f pre post => sampleNested_first_ok t d la lo v f pre post,
   fun e f fs => sampleNested_all_err t d la lo e f fs⟩

/-- Witness for C8 on concrete fields: a sum of succeeding constituents,
a sum failing through one failing constituent, a nested first success
behind a failing constituent, and a nested field returning the last of
two distinct errors. -/
theorem C8_composite_fields_witness :
    sampleSummed 0 0 0 0 [fieldC] = Except.ok 3 ∧
    sampleSummed 0 0 0 0 [fieldC, fieldE]
      = Except.error ErrorKind.OutOfBounds ∧
    sampleNested 0 0 0 0 [fieldE, fieldC] = Except.ok 3 ∧
    sampleNested 0 0 0 0 [fieldE, fieldF]
      = Except.error ErrorKind.TimeExtrapolation := by
  have hC : fieldC.sample 0 0 0 0 = Except.ok 3 := by
    norm_num [Field.sample, fieldC, Field.timeInWindow, Field.timeLo,
      Field.timeHi, Axis.resolve, Axis.inDomain, Axis.lo, Axis.hi, clampQ,
      cellFrac, locate, bilinear]
  have hE : fieldE.sample 0 0 0 0 = Except.error ErrorKind.OutOfBounds := by
    norm_num [Field.sample, fieldE, Field.timeInWindow, Field.timeLo,
      Field.timeHi, Axis.resolve, Axis.inDomain, Axis.lo, Axis.hi, clampQ,
      cellFrac, locate, bilinear]
  have hF : fieldF.sample 0 0 0 0
      = Except.error ErrorKind.TimeExtrapolation := by
    norm_num [Field.sample, fieldF, Field.timeInWindow, Field.timeLo,
      Field.timeHi, Axis.resolve, Axis.inDomain, Axis.lo, Axis.hi, clampQ,
      cellFrac, locate, bilinear]
  refine ⟨?_, ?_, ?_, ?_⟩
  · have h := (C8_composite_fields 0 0 0 0).1 (fun _ => 3) [fieldC]
      (by intro g hg; rw [List.mem_singleton] at hg; subst hg; exact hC)
    simpa using h
  · have h := (C8_composite_fields 0 0 0 0).2.1 (fun _ => 3)
      ErrorKind.OutOfBounds fieldE [fieldC] []
      (by intro g hg; rw [List.mem_singleton] at hg; subst hg; exact hC) hE
    simpa using h
  · have h := (C8_composite_fields 0 0 0 0).2.2.1 3 fieldC [fieldE] []
      (by intro g hg; rw [List.mem_singleton] at hg; subst hg;
          exact ⟨ErrorKind.OutOfBounds, hE⟩) hC
    simpa using h
  · have h := (C8_composite_fields 0 0 0 0).2.2.2
      ErrorKind.TimeExtrapolation fieldF [fieldE]
      (by intro g hg; rw [List.mem_singleton] at hg; subst hg;
          exact ⟨ErrorKind.OutOfBounds, hE⟩) hF
    simpa using h

/-- A successful `Except` bind reduces to its continuation. -/
theorem except_bind_ok {ε α β : Type} (a : α) (f : α → Except ε β) :
    (Except.ok a : Except ε α) >>= f = f a := rfl

/-- C4: translating a kernel list translates each source independently
and joins the results in list order; a local variable introduced in one
segment is visible to later segments of the same step for the same
particle; locals never persist to a later timestep (each step begins from
the empty environment); particles are stepped independently, so locals
are never shared across particles; and `[A, B]` and `[B, A]` may differ
when segments share a local variable name. -/
theorem C4_concatenation_and_locals :
    (∀ (s : KernelSource) (rest : List KernelSource)
       (schema : List String) (a b : String),
      translate s schema = Except.ok a →
      translateList rest schema = Except.ok b →
      translateList (s :: rest) schema = Except.ok (a ++ b)) ∧
    (∀ (ctx : KernelCtx) (fuel : Nat) (a b : KStmt) (env : Env)
       (p : Particle) (env1 : Env) (p1 : Particle),
      execS ctx fuel a env p = Except.ok (env1, p1, Signal.norm) →
      execS ctx fuel (KStmt.seq a b) env p = execS ctx fuel b env1 p1) ∧
    (∀ (ctx : KernelCtx) (body : KStmt) (n : Nat) (p : Particle),
      runTimesteps ctx body (n + 1) p
        = kernelInvoke ctx body (runTimesteps ctx body n p)) ∧
    (∀ (ctx : KernelCtx) (body : KStmt) (ps : List Particle) (i : Nat),
      (stepAll ctx body ps)[i]? = (ps[i]?).map (kernelInvoke ctx body)) ∧
    kernelInvoke ctx0 (concatBodies [segA, segB]) particle0
      ≠ kernelInvoke ctx0 (concatBodies [segB, segA]) particle0 := by
  refine ⟨?_, ?_, ?_, ?_, ?_⟩
  · intro s rest schema a b ha hb
    simp [translateList, ha, hb]
  · intro ctx fuel a b env p env1 p1 h
    simp only [execS, h]
    rfl
  · intro ctx body n p
    rfl
  · intro ctx body ps i
    simp [stepAll]
  · simp only [kernelInvoke, concatBodies, List.foldr, segA, segB, ctx0,
      particle0, execS, evalE, lookupEnv, except_bind_ok]
    simp

/-- Witness for C4: the concrete two-segment kernel list joins in order,
the local x assigned by the first segment is visible to the second, and
the population step treats the single particle independently. -/
theorem C4_concatenation_and_locals_witness :
    translateList [segA, segB] []
      = Except.ok (stmtText [] segA.body ++ stmtText [] segB.body) ∧
    execS ctx0 9 (KStmt.seq segA.body segB.body) [] particle0
      = execS ctx0 9 segB.body [("x", 1)] particle0 ∧
    (stepAll ctx0 (concatBodies [segA, segB]) [particle0])[0]?
      = some (kernelInvoke ctx0 (concatBodies [segA, segB]) particle0) := by
  refine ⟨?_, ?_, ?_⟩
  · exact C4_concatenation_and_locals.1 segA [segB] []
      (stmtText [] segA.body) (stmtText [] segB.body)
      (by simp [translate, segA, stmtSupported, exprSupported])
      (by simp [translateList, translate, segB, stmtSupported,
        exprSupported])
  · exact C4_concatenation_and_locals.2.1 ctx0 9 segA.body segB.body []
      particle0 [("x", 1)] particle0
      (by simp only [segA, execS, evalE, except_bind_ok])
  · have h := C4_concatenation_and_locals.2.2.2.1 ctx0
      (concatBodies [segA, segB]) [particle0] 0
    simpa using h

/-- A statement containing a `for` loop is not supported. -/
theorem mentionsFor_not_supported :
    ∀ s : KStmt, mentionsFor s = true → stmtSupported s = false := by
  intro s
  induction s with
  | skip => simp [mentionsFor]
  | seq a b iha ihb =>
      intro h
      have h2 : mentionsFor a = true ∨ mentionsFor b = true := by
        simpa [mentionsFor] using h
      rcases h2 with h1 | h1
      · simp [stmtSupported, iha h1]
      · simp [stmtSupported, ihb h1]
  | assignLocal x e => simp [mentionsFor]
  | assignUvar i e => simp [mentionsFor]
  | assignLon e => simp [mentionsFor]
  | assignLat e => simp [mentionsFor]
  | assignDepth e => simp [mentionsFor]
  | ifThen c a b iha ihb =>
      intro h
      have h2 : mentionsFor a = true ∨ mentionsFor b = true := by
        simpa [mentionsFor] using h
      rcases h2 with h1 | h1
      · simp [stmtSupported, iha h1]
      · simp [stmtSupported, ihb h1]
  | whileLoop c b ihb =>
      intro h
      simp [stmtSupported, ihb (by simpa [mentionsFor] using h)]
  | breakLoop => simp [mentionsFor]
  | printOut e => simp [mentionsFor]
  | forLoop x coll b ihb => simp [stmtSupported]

/-- C6: the translator rejects every source that is not exactly a
three-parameter function and every body using a construct outside the
supported set — in particular `for` loops over arbitrary collections —
with `UnsupportedConstruct`; and every translation failure is reported
before any compilation is attempted. -/
theorem C6_translate_rejects_unsupported :
    (∀ (src : KernelSource) (schema : List String),
      src.params.length ≠ 3 →
      translate src schema
        = Except.error ErrorKind.UnsupportedConstruct) ∧
    (∀ (src : KernelSource) (schema : List String),
      stmtSupported src.body = false →
      translate src schema
        = Except.error ErrorKind.UnsupportedConstruct) ∧
    (∀ (src : KernelSource) (schema : List String),
      mentionsFor src.body = true →
      translate src schema
        = Except.error ErrorKind.UnsupportedConstruct) ∧
    (∀ (compile : String → Except ErrorKind String)
       (srcs : List KernelSource) (schema : List String) (e : ErrorKind),
      translateList srcs schema = Except.error e →
      buildPipeline compile srcs schema = (Except.error e, 0)) := by
  refine ⟨?_, ?_, ?_, ?_⟩
  · intro src schema h
    simp [translate, h]
  · intro src schema h
    simp [translate, h]
  · intro src schema h
    simp [translate, mentionsFor_not_supported src.body h]
  · intro compile srcs schema e h
    simp [buildPipeline, h]

/-- Witness for C6: a two-parameter source and a `for`-loop source are
both rejected, and the pipeline on the `for`-loop source reports the
failure with zero compiler invocations. -/
theorem C6_translate_rejects_unsupported_witness :
    translate badArity [] = Except.error ErrorKind.UnsupportedConstruct ∧
    translate badFor [] = Except.error ErrorKind.UnsupportedConstruct ∧
    buildPipeline (fun txt => Except.ok txt) [badFor] []
      = (Except.error ErrorKind.UnsupportedConstruct, 0) := by
  refine ⟨?_, ?_, ?_⟩
  · exact C6_translate_rejects_unsupported.1 badArity []
      (by simp [badArity])
  · exact C6_translate_rejects_unsupported.2.2.1 badFor []
      (by simp [badFor, mentionsFor])
  · exact C6_translate_rejects_unsupported.2.2.2
      (fun txt => Except.ok txt) [badFor] []
      ErrorKind.UnsupportedConstruct
      (by simp [translateList, translate, badFor, stmtSupported])

/-- `get_or_build` never removes or changes an existing cache entry. -/
theorem getOrBuild_preserves (c : KernelCache) (s : Signature) (k : Nat)
    (a : Artifact) (h : c.entries.lookup k = some a) :
    ((getOrBuild c s).2).entries.lookup k = some a := by
  cases hl : c.entries.lookup (hashSig s) with
  | some b => simp [getOrBuild, hl, h]
  | none =>
      have hk : (k == hashSig s) = false := by
        apply beq_eq_false_iff_ne.mpr
        intro he
        rw [he] at h
        rw [h] at hl
        exact Option.noConfusion hl
      simp [getOrBuild, hl, List.lookup, hk, h]

/-- Serving any request sequence preserves every existing cache entry. -/
theorem serveAll_preserves (k : Nat) (a : Artifact) :
    ∀ (reqs : List Signature) (c : KernelCache),
      c.entries.lookup k = some a →
      (serveAll c reqs).entries.lookup k = some a
  | [], _, h => h
  | s :: reqs, c, h =>
      serveAll_preserves k a reqs ((getOrBuild c s).2)
        (getOrBuild_preserves c s k a h)

/-- C5: `get_or_build` is keyed by the hash of the signature: the first
request for an absent key performs exactly one build whose artifact is
the deterministic compilation of the signature, and every later request
with an equal signature — after any interleaved other requests — returns
the same cached artifact with the cache, and hence its build counter,
unchanged. -/
theorem C5_cache_hit_and_single_build :
    (∀ (c : KernelCache) (sig : Signature),
      c.entries.lookup (hashSig sig) = none →
      getOrBuild c sig
        = (buildArtifact sig,
           ⟨(hashSig sig, buildArtifact sig) :: c.entries,
            c.builds + 1⟩)) ∧
    (∀ (c : KernelCache) (sig : Signature) (a : Artifact),
      c.entries.lookup (hashSig sig) = some a →
      getOrBuild c sig = (a, c)) ∧
    (∀ (c : KernelCache) (sig : Signature) (a : Artifact)
       (reqs : List Signature),
      c.entries.lookup (hashSig sig) = some a →
      (getOrBuild (serveAll c reqs) sig).1 = a ∧
      (getOrBuild (serveAll c reqs) sig).2 = serveAll c reqs) := by
  refine ⟨?_, ?_, ?_⟩
  · intro c sig h
    simp [getOrBuild, h]
  · intro c sig a h
    simp [getOrBuild, h]
  · intro c sig a reqs h
    have h2 := serveAll_preserves (hashSig sig) a reqs c h
    simp [getOrBuild, h2]

/-- Witness for C5: from the empty cache, the first request for a
concrete signature builds its artifact and counts one build; repeating
the request returns the same artifact with the build count still one. -/
theorem C5_cache_hit_and_single_build_witness :
    (getOrBuild KernelCache.empty sigX).1 = buildArtifact sigX ∧
    (getOrBuild KernelCache.empty sigX).2.builds = 1 ∧
    (getOrBuild (getOrBuild KernelCache.empty sigX).2 sigX).1
      = buildArtifact sigX ∧
    (getOrBuild (getOrBuild KernelCache.empty sigX).2 sigX).2.builds
      = 1 := by
  have h1 := C5_cache_hit_and_single_build.1 KernelCache.empty sigX
    (by rfl)
  have hc : (getOrBuild KernelCache.empty sigX).2
      = ⟨[(hashSig sigX, buildArtifact sigX)], 1⟩ := by
    rw [h1]
    rfl
  have hl : ((getOrBuild KernelCache.empty sigX).2).entries.lookup
      (hashSig sigX) = some (buildArtifact sigX) := by
    rw [hc]
    simp [List.lookup]
  have h2 := C5_cache_hit_and_single_build.2.1
    ((getOrBuild KernelCache.empty sigX).2) sigX (buildArtifact sigX) hl
  exact ⟨by rw [h1], by rw [hc], by rw [h2], by rw [h2, hc]⟩

/-- C10: a run is driven by a FieldSet that must contain the fields named
U and V; setup against a FieldSet lacking either is rejected at
construction, before any particle is stepped (zero timesteps execute). -/
theorem C10_run_requires_U_and_V (fs : FieldSet) (init : List Particle)
    (kernel : Particle → KernelResult)
    (recovery : ErrorKind → Option (Particle → RecoveryOutcome))
    (minDt : ℚ) (n : Nat) :
    (fs.hasField "U" = true → fs.hasField "V" = true →
      mkParticleSet fs init = Except.ok (fs, init)) ∧
    (fs.hasField "U" = false →
      setupAndExecute fs init kernel recovery minDt n
        = (Except.error SetupError.missingU, 0)) ∧
    (fs.hasField "U" = true → fs.hasField "V" = false →
      setupAndExecute fs init kernel recovery minDt n
        = (Except.error SetupError.missingV, 0)) := by
  refine ⟨?_, ?_, ?_⟩
  · intro hU hV
    simp [mkParticleSet, hU, hV]
  · intro hU
    simp [setupAndExecute, mkParticleSet, hU]
  · intro hU hV
    simp [setupAndExecute, mkParticleSet, hU, hV]

/-- Witness for C10 on concrete FieldSets: both components present is
accepted; missing U and missing V are each rejected with zero executed
timesteps. -/
theorem C10_run_requires_U_and_V_witness :
    mkParticleSet fsUV [particle0] = Except.ok (fsUV, [particle0]) ∧
    setupAndExecute fsV [particle0]
      (fun _ => ⟨0, 0, 0, [], (0, 0), StateCode.Success⟩)
      (fun _ => none) 0 3
      = (Except.error SetupError.missingU, 0) ∧
    setupAndExecute fsU [particle0]
      (fun _ => ⟨0, 0, 0, [], (0, 0), StateCode.Success⟩)
      (fun _ => none) 0 3
      = (Except.error SetupError.missingV, 0) := by
  refine ⟨?_, ?_, ?_⟩
  · exact (C10_run_requires_U_and_V fsUV [particle0]
      (fun _ => ⟨0, 0, 0, [], (0, 0), StateCode.Success⟩)
      (fun _ => none) 0 3).1
      (by simp [FieldSet.hasField, fsUV])
      (by simp [FieldSet.hasField, fsUV])
  · exact (C10_run_requires_U_and_V fsV [particle0]
      (fun _ => ⟨0, 0, 0, [], (0, 0), StateCode.Success⟩)
      (fun _ => none) 0 3).2.1
      (by simp [FieldSet.hasField, fsV])
  · exact (C10_run_requires_U_and_V fsU [particle0]
      (fun _ => ⟨0, 0, 0, [], (0, 0), StateCode.Success⟩)
      (fun _ => none) 0 3).2.2
      (by simp [FieldSet.hasField, fsU])
      (by simp [FieldSet.hasField, fsU])

end Parcels
